import Mathlib

/-!
Verification development for the WhatsApp chat analyzer core
(src/preprocessor.py): the header-line parser parse_chat and the
feature-extraction step preprocess, embedded shallowly over lists of
characters. Strings are modelled as List Char (one entry per Unicode
scalar, matching Python string indexing); machine-level concerns do not
arise. External library routines that the source calls (re, datetime,
pandas to_datetime, urlextract, emoji) are modelled by executable Lean
functions whose doc comments state exactly which call they stand for and
which corner they restrict.
-/

set_option maxRecDepth 8000

namespace WCA

/-- Characters of the regex class backslash-s as used by the header patterns
and by strptime format whitespace (the ASCII range; the rarer Unicode space
characters never occur in the inputs the claims are about). -/
def pySpace (c : Char) : Bool :=
  c = ' ' || c = '\t' || c = '\n' || c = '\r' || c = '\x0b' || c = '\x0c'

def isDigitCh (c : Char) : Bool :=
  '0' ≤ c && c ≤ '9'

def digitVal (c : Char) : Nat := c.toNat - '0'.toNat

/-- Numeric value of a nonempty all-digit string; models the Python int()
call on the first date component (src/preprocessor.py line 125), restricted
to the unsigned digit strings the header regexes produce. A non-numeric
string makes int() raise, modelled as none. -/
def parseNatDigits (s : List Char) : Option Nat :=
  if s ≠ [] && s.all isDigitCh then
    some (s.foldl (fun acc c => acc * 10 + digitVal c) 0)
  else none

/-- Python str.split with a one-character separator: n separators yield
n+1 fields, empty fields included (used for data.split at line 41 and
sample_date.split at line 122). -/
def splitOn (sep : Char) : List Char → List (List Char)
  | [] => [[]]
  | c :: rest =>
    if c = sep then [] :: splitOn sep rest
    else
      match splitOn sep rest with
      | l :: ls => (c :: l) :: ls
      | [] => [[c]]

def splitLines (data : List Char) : List (List Char) := splitOn '\n' data

/-- Joins lines with a newline separator (the inverse of splitLines on
newline-free lines); used only to state theorems about whole inputs. -/
def joinLines : List (List Char) → List Char
  | [] => []
  | [l] => l
  | l :: rest => l ++ '\n' :: joinLines rest

/-- Boolean prefix test on character lists. -/
def isPre : List Char → List Char → Bool
  | [], _ => true
  | _ :: _, [] => false
  | p :: ps, c :: rest => if p = c then isPre ps rest else false

/-- Boolean substring test: models the Python expression a in b on
strings. -/
def isSubstr (p : List Char) : List Char → Bool
  | [] => p.isEmpty
  | c :: rest => isPre p (c :: rest) || isSubstr p rest

/-! ## The header-line regexes of parse_chat (src/preprocessor.py 23-27)

re.match anchors at the start of the line and needs no end anchor. Each
numeric run directive of the patterns is followed by a non-digit literal,
so greedy matching with backtracking is equivalent to: take the maximal
digit run, require its length in range, then require the literal. Lines
handed to the matchers come from a newline split, and the dot class stops
at a newline, so the matchers cut any message tail at a newline. -/

structure RawRecord where
  date : List Char
  time : List Char
  user : List Char
  message : List Char
deriving DecidableEq, Repr

/-- Greedy digit run for a pattern piece of the form backslash-d within
bounds followed by a non-digit literal: the run length must be within
lo..hi. -/
def digitsBounded (lo hi : Nat) (s : List Char) : Option (List Char × List Char) :=
  let ds := s.takeWhile isDigitCh
  if lo ≤ ds.length && ds.length ≤ hi then some (ds, s.dropWhile isDigitCh) else none

def expectCh (c : Char) : List Char → Option (List Char)
  | x :: rest => if x = c then some rest else none
  | [] => none

/-- One regex whitespace character, returned so capture groups that include
it can keep the exact character matched. -/
def takeSpace : List Char → Option (Char × List Char)
  | x :: rest => if pySpace x then some (x, rest) else none
  | [] => none

def exact2Digits : List Char → Option (List Char × List Char)
  | a :: b :: rest =>
    if isDigitCh a && isDigitCh b then some ([a, b], rest) else none
  | _ => none

def exact4Digits : List Char → Option (List Char × List Char)
  | a :: b :: c :: d :: rest =>
    if isDigitCh a && isDigitCh b && isDigitCh c && isDigitCh d then
      some ([a, b, c, d], rest)
    else none
  | _ => none

/-- The pattern piece for AM and PM letters, one of A P a p then one of
M m. -/
def matchAmPmChars : List Char → Option (List Char × List Char)
  | a :: m :: rest =>
    if (a = 'A' || a = 'P' || a = 'a' || a = 'p') && (m = 'M' || m = 'm') then
      some ([a, m], rest)
    else none
  | _ => none

/-- The slash date group of the 12 and 24 hour patterns: one or two digits,
slash, one or two digits, slash, two to four digits. -/
def matchSlashDate (s : List Char) : Option (List Char × List Char) :=
  match digitsBounded 1 2 s with
  | none => none
  | some (d1, r1) =>
  match expectCh '/' r1 with
  | none => none
  | some r2 =>
  match digitsBounded 1 2 r2 with
  | none => none
  | some (d2, r3) =>
  match expectCh '/' r3 with
  | none => none
  | some r4 =>
  match digitsBounded 2 4 r4 with
  | none => none
  | some (d3, r5) => some (d1 ++ '/' :: d2 ++ '/' :: d3, r5)

/-- The non-greedy user capture followed by a colon, one whitespace
character and the message: the user is the shortest prefix up to a colon
that a whitespace character follows; the dot class cannot cross a
newline. Returns the user and the input tail after the whitespace. -/
def splitUserMsg : List Char → Option (List Char × List Char)
  | ':' :: c :: rest =>
    if pySpace c then some ([], rest)
    else
      match splitUserMsg (c :: rest) with
      | some (u, m) => some (':' :: u, m)
      | none => none
  | c :: rest =>
    if c = '\n' then none
    else
      match splitUserMsg rest with
      | some (u, m) => some (c :: u, m)
      | none => none
  | [] => none

/-- The message capture: the dot class stops at a newline (none is present
in a split line). -/
def msgTail (s : List Char) : List Char := s.takeWhile (fun c => c ≠ '\n')

/-- Models re.match with pattern_12hr (src/preprocessor.py line 23): date,
comma, space, twelve-hour time with AM or PM, space dash space, user,
colon space, message. The time capture keeps the exact whitespace
character it matched. -/
def match12hr (line : List Char) : Option RawRecord :=
  match matchSlashDate line with
  | none => none
  | some (date, r1) =>
  match expectCh ',' r1 with
  | none => none
  | some r2 =>
  match takeSpace r2 with
  | none => none
  | some (_, r3) =>
  match digitsBounded 1 2 r3 with
  | none => none
  | some (hh, r4) =>
  match expectCh ':' r4 with
  | none => none
  | some r5 =>
  match exact2Digits r5 with
  | none => none
  | some (mm, r6) =>
  match takeSpace r6 with
  | none => none
  | some (sp, r7) =>
  match matchAmPmChars r7 with
  | none => none
  | some (ap, r8) =>
  match takeSpace r8 with
  | none => none
  | some (_, r9) =>
  match expectCh '-' r9 with
  | none => none
  | some r10 =>
  match takeSpace r10 with
  | none => none
  | some (_, r11) =>
  match splitUserMsg r11 with
  | none => none
  | some (user, rest) =>
    some { date := date, time := hh ++ ':' :: mm ++ sp :: ap,
           user := user, message := msgTail rest }

/-- Models re.match with pattern_24hr (src/preprocessor.py line 24). -/
def match24hr (line : List Char) : Option RawRecord :=
  match matchSlashDate line with
  | none => none
  | some (date, r1) =>
  match expectCh ',' r1 with
  | none => none
  | some r2 =>
  match takeSpace r2 with
  | none => none
  | some (_, r3) =>
  match digitsBounded 1 2 r3 with
  | none => none
  | some (hh, r4) =>
  match expectCh ':' r4 with
  | none => none
  | some r5 =>
  match exact2Digits r5 with
  | none => none
  | some (mm, r6) =>
  match takeSpace r6 with
  | none => none
  | some (_, r7) =>
  match expectCh '-' r7 with
  | none => none
  | some r8 =>
  match takeSpace r8 with
  | none => none
  | some (_, r9) =>
  match splitUserMsg r9 with
  | none => none
  | some (user, rest) =>
    some { date := date, time := hh ++ ':' :: mm,
           user := user, message := msgTail rest }

/-- Models re.match with pattern_bracket_format (src/preprocessor.py line
27): bracketed dotted date with a four-digit year and a time with
seconds. -/
def matchBracket (line : List Char) : Option RawRecord :=
  match expectCh '[' line with
  | none => none
  | some r0 =>
  match digitsBounded 1 2 r0 with
  | none => none
  | some (d1, r1) =>
  match expectCh '.' r1 with
  | none => none
  | some r2 =>
  match digitsBounded 1 2 r2 with
  | none => none
  | some (d2, r3) =>
  match expectCh '.' r3 with
  | none => none
  | some r4 =>
  match exact4Digits r4 with
  | none => none
  | some (d3, r5) =>
  match expectCh ',' r5 with
  | none => none
  | some r6 =>
  match takeSpace r6 with
  | none => none
  | some (_, r7) =>
  match digitsBounded 1 2 r7 with
  | none => none
  | some (hh, r8) =>
  match expectCh ':' r8 with
  | none => none
  | some r9 =>
  match exact2Digits r9 with
  | none => none
  | some (mm, r10) =>
  match expectCh ':' r10 with
  | none => none
  | some r11 =>
  match exact2Digits r11 with
  | none => none
  | some (ss, r12) =>
  match expectCh ']' r12 with
  | none => none
  | some r13 =>
  match takeSpace r13 with
  | none => none
  | some (_, r14) =>
  match splitUserMsg r14 with
  | none => none
  | some (user, rest) =>
    some { date := d1 ++ '.' :: d2 ++ '.' :: d3,
           time := hh ++ ':' :: mm ++ ':' :: ss,
           user := user, message := msgTail rest }

/-- The three patterns in the priority order of the if chain
(src/preprocessor.py 54-71). -/
def matchHeader (line : List Char) : Option RawRecord :=
  match match12hr line with
  | some r => some r
  | none =>
    match match24hr line with
    | some r => some r
    | none => matchBracket line

/-- Appends a newline plus the line to the message of the last record, the
continuation step of src/preprocessor.py line 76; an empty record list
drops the line (line 75). -/
def appendToLast (recs : List RawRecord) (line : List Char) : List RawRecord :=
  match recs with
  | [] => []
  | [r] => [{ r with message := r.message ++ '\n' :: line }]
  | r :: rest => r :: appendToLast rest line

def parseStep (acc : List RawRecord) (line : List Char) : List RawRecord :=
  match matchHeader line with
  | some r => acc ++ [r]
  | none => appendToLast acc line

/-- Models parse_chat (src/preprocessor.py 12-94). The chunked loop of
lines 44-48 visits the split lines in input order, so it is one left fold
over the lines; the category dtype cast, the del statements and the gc
call (86-92) do not change any record field. -/
def parse_chat (data : List Char) : List RawRecord :=
  (splitLines data).foldl parseStep []

/-! ## convert_time (src/preprocessor.py 146-160)

datetime.strptime compiles each format into a regex: a numeric directive
is an alternation that tries its two-digit form first, then its one-digit
form, with ordinary regex backtracking into the rest of the format; a
blank in the format matches one or more whitespace characters; the AM and
PM directive matches the locale words case-insensitively; any unconverted
trailing text makes strptime raise. -/

/-- A strptime numeric directive followed by the continuation k: the
two-digit alternative accepts values lo2..hi2, the one-digit alternative
values lo1..hi1, and backtracking tries the two-digit reading first. -/
def altNum (lo2 hi2 lo1 hi1 : Nat) (s : List Char)
    (k : Nat → List Char → Option α) : Option α :=
  (match s with
   | a :: b :: rest =>
     if isDigitCh a && isDigitCh b then
       let v := digitVal a * 10 + digitVal b
       if lo2 ≤ v && v ≤ hi2 then k v rest else none
     else none
   | _ => none)
  <|>
  (match s with
   | a :: rest =>
     if isDigitCh a then
       let v := digitVal a
       if lo1 ≤ v && v ≤ hi1 then k v rest else none
     else none
   | _ => none)

/-- The AM and PM words, matched case-insensitively; returns whether the
word was PM. -/
def parseAmPm : List Char → Option (Bool × List Char)
  | c1 :: c2 :: rest =>
    if (c1 = 'A' || c1 = 'a') && (c2 = 'M' || c2 = 'm') then some (false, rest)
    else if (c1 = 'P' || c1 = 'p') && (c2 = 'M' || c2 = 'm') then some (true, rest)
    else none
  | _ => none

/-- One or more whitespace characters, for a blank inside a strptime
format. -/
def takeSpaces1 : List Char → Option (List Char)
  | c :: rest => if pySpace c then some (rest.dropWhile pySpace) else none
  | [] => none

/-- Models datetime.strptime with the twelve-hour format used at
src/preprocessor.py line 152 (hour 1..12, minute 0..59, a blank, AM or
PM, nothing after), already converted to the 24-hour pair the strftime
call there produces. -/
def strptime_IMp (t : List Char) : Option (Nat × Nat) :=
  altNum 1 12 1 9 t (fun h12 r1 =>
    match expectCh ':' r1 with
    | none => none
    | some r2 =>
      altNum 0 59 0 9 r2 (fun m r3 =>
        match takeSpaces1 r3 with
        | none => none
        | some r4 =>
          match parseAmPm r4 with
          | none => none
          | some (isPM, r5) =>
            if r5 = [] then
              some ((if isPM then (if h12 = 12 then 12 else h12 + 12)
                     else (if h12 = 12 then 0 else h12)), m)
            else none))

/-- Models datetime.strptime with the format of src/preprocessor.py line
157 (hour 0..23, minute 0..59, seconds 0..61 as strptime allows, nothing
after). -/
def strptime_HMS (t : List Char) : Option (Nat × Nat × Nat) :=
  altNum 0 23 0 9 t (fun h r1 =>
    match expectCh ':' r1 with
    | none => none
    | some r2 =>
      altNum 0 59 0 9 r2 (fun m r3 =>
        match expectCh ':' r3 with
        | none => none
        | some r4 =>
          altNum 0 61 0 9 r4 (fun s r5 =>
            if r5 = [] then some (h, m, s) else none)))

/-- One decimal digit character; the modulus keeps the result a digit for
every argument, and every caller passes a value below 100. -/
def dchar (x : Nat) : Char := Char.ofNat (48 + x % 10)

/-- Two-digit zero-padded decimal, as the strftime directives for hour and
minute print them. -/
def digit2 (n : Nat) : List Char := [dchar (n / 10), dchar n]

/-- The 24-hour output format of src/preprocessor.py lines 152 and 157. -/
def fmtHM (h m : Nat) : List Char := digit2 h ++ ':' :: digit2 m

/-- The marker test of src/preprocessor.py line 150: the four exact
substrings AM, PM, am, pm. -/
def hasAmPmMarker (t : List Char) : Bool :=
  isSubstr ['A', 'M'] t || isSubstr ['P', 'M'] t ||
  isSubstr ['a', 'm'] t || isSubstr ['p', 'm'] t

/-- Models convert_time (src/preprocessor.py 146-160) on a string time
value (the non-string branch at 147-148 never fires on a parsed frame,
whose time column is all strings). -/
def convert_time (t : List Char) : List Char :=
  if hasAmPmMarker t then
    match strptime_IMp t with
    | some (h, m) => fmtHM h m
    | none => t
  else if t.contains ':' && t.count ':' = 2 then
    match strptime_HMS t with
    | some (h, m, _) => fmtHM h m
    | none => t
  else t

/-! ## Date parsing (src/preprocessor.py 110-143) -/

structure PDate where
  year : Nat
  month : Nat
  day : Nat
deriving DecidableEq, Repr

def isLeap (y : Nat) : Bool := (y % 4 = 0 && y % 100 ≠ 0) || y % 400 = 0

def daysInMonth (y m : Nat) : Nat :=
  if m = 2 then (if isLeap y then 29 else 28)
  else if m = 4 || m = 6 || m = 9 || m = 11 then 30
  else 31

/-- Calendar validity plus the pandas Timestamp nanosecond range,
approximated at year granularity (the exact bounds are 1677-09-21 and
2262-04-11; no claim touches the two boundary years). -/
def validPDate (d : PDate) : Bool :=
  1 ≤ d.month && d.month ≤ 12 && 1 ≤ d.day && d.day ≤ daysInMonth d.year d.month
  && 1678 ≤ d.year && d.year ≤ 2261

def mkValid (y m d : Nat) : Option PDate :=
  if validPDate ⟨y, m, d⟩ then some ⟨y, m, d⟩ else none

/-- A four-digit year directive, then the continuation. -/
def year4Digits (s : List Char) (k : Nat → List Char → Option PDate) : Option PDate :=
  match s with
  | a :: b :: c :: d :: rest =>
    if isDigitCh a && isDigitCh b && isDigitCh c && isDigitCh d then
      k (digitVal a * 1000 + digitVal b * 100 + digitVal c * 10 + digitVal d) rest
    else none
  | _ => none

/-- A two-digit year directive with the strptime pivot: 0..68 becomes
2000..2068 and 69..99 becomes 1969..1999. -/
def year2Digits (s : List Char) (k : Nat → List Char → Option PDate) : Option PDate :=
  match s with
  | a :: b :: rest =>
    if isDigitCh a && isDigitCh b then
      let v := digitVal a * 10 + digitVal b
      k (if v ≤ 68 then 2000 + v else 1900 + v) rest
    else none
  | _ => none

/-- The shared body of the five explicit formats: day and month
directives accept one or two digits with the strptime ranges (day 1..31,
month 1..12, a one-digit reading 1..9), the whole string must be consumed
and the date must be a valid in-range Timestamp. -/
def dateBody (sep : Char) (dayFirst : Bool) (year4 : Bool) (s : List Char) : Option PDate :=
  altNum 1 (if dayFirst then 31 else 12) 1 9 s (fun a r1 =>
    match expectCh sep r1 with
    | none => none
    | some r2 =>
      altNum 1 (if dayFirst then 12 else 31) 1 9 r2 (fun b r3 =>
        match expectCh sep r3 with
        | none => none
        | some r4 =>
          let k : Nat → List Char → Option PDate := fun y r5 =>
            if r5 = [] then
              (if dayFirst then mkValid y b a else mkValid y a b)
            else none
          if year4 then year4Digits r4 k else year2Digits r4 k))

/-- The five formats the inference block can choose
(src/preprocessor.py 118-129). -/
inductive DateFmt
  | dmY_dot | dmY_slash | dmy_slash | mdY_slash | mdy_slash
deriving DecidableEq, Repr

/-- Models pd.to_datetime with the explicit format chosen by the
inference (src/preprocessor.py line 137), one date at a time; the whole
column conversion raises as soon as one date fails. -/
def strictParseDate (fmt : DateFmt) (s : List Char) : Option PDate :=
  match fmt with
  | .dmY_dot => dateBody '.' true true s
  | .dmY_slash => dateBody '/' true true s
  | .dmy_slash => dateBody '/' true false s
  | .mdY_slash => dateBody '/' false true s
  | .mdy_slash => dateBody '/' false false s

/-- Day and month resolution of dateutil with dayfirst set: the day-first
reading is kept whenever it passes the coarse bounds, otherwise the
month-first reading is tried; calendar overflow is caught later and makes
the parse fail without re-swapping, as dateutil does. -/
def resolveDM (a b : Nat) : Option (Nat × Nat) :=
  if 1 ≤ a && a ≤ 31 && 1 ≤ b && b ≤ 12 then some (a, b)
  else if 1 ≤ a && a ≤ 12 && 1 ≤ b && b ≤ 31 then some (b, a)
  else none

/-- A numeric triple around a uniform separator, the shape the flexible
parser receives in this pipeline. -/
def flexTriple (sep : Char) (s : List Char) : Option (Nat × Nat × Nat) :=
  match splitOn sep s with
  | [p0, p1, p2] =>
    (match parseNatDigits p0, parseNatDigits p1, parseNatDigits p2 with
     | some a, some b, some c => some (a, b, c)
     | _, _, _ => none)
  | _ => none

/-- Models the flexible dateutil parsing with dayfirst set that both
fallback calls use (src/preprocessor.py lines 140 and 143), restricted to
the numeric triple shapes that occur here: three digit groups joined by a
slash, period or dash. A two-digit trailing group is a year with the
68 pivot (dateutil uses a moving fifty-year window around the current
year, which differs only for years no claim touches); failure is NaT
under coercion. Triples with a component over 31 in first place, which
dateutil could still read as a leading two-digit year, are modelled as
failures — no claim exercises that corner. -/
def flexParseDate (s : List Char) : Option PDate :=
  match (match flexTriple '/' s with
         | some t => some t
         | none =>
           match flexTriple '.' s with
           | some t => some t
           | none => flexTriple '-' s) with
  | some (a, b, c) =>
    let y := if c ≤ 99 then (if c ≤ 68 then 2000 + c else 1900 + c) else c
    (match resolveDM a b with
     | some (d, m) => mkValid y m d
     | none => none)
  | none => none

/-- Models the format inference of the try block (src/preprocessor.py
112-133) on the date column. The sample is the first hundred rows; the
period test wins first; otherwise the first slash-containing sampled date
is split, and its first component is fed to int() — a non-numeric
component makes int() raise, modelled as Except.error, which the except
clause turns into coerced flexible parsing. -/
def infer_date_format (dates : List (List Char)) : Except Unit (Option DateFmt) :=
  let sample := dates.take 100
  if sample.any (fun d => d.contains '.') then .ok (some .dmY_dot)
  else
    match sample.find? (fun d => d.contains '/') with
    | some s =>
      (match splitOn '/' s with
       | [p0, _, p2] =>
         (match parseNatDigits p0 with
          | some v =>
            if v > 12 then
              .ok (some (if p2.length = 4 then .dmY_slash else .dmy_slash))
            else
              .ok (some (if p2.length = 4 then .mdY_slash else .mdy_slash))
          | none => .error ())
       | _ => .ok none)
    | none => .ok none

/-- The net per-row date conversion of src/preprocessor.py 110-143. With
an inferred format, line 137 converts the whole column and raises as soon
as one date fails, and the except clause then re-converts every date with
coerced flexible parsing; with no format, line 140 uses flexible parsing
in raising mode and the except clause coerces, so each date ends at its
flexible value either way; an exception inside the inference lands in the
same except clause. -/
def dateParserFor (dates : List (List Char)) : List Char → Option PDate :=
  match infer_date_format dates with
  | .ok (some fmt) =>
    if dates.all (fun d => (strictParseDate fmt d).isSome) then strictParseDate fmt
    else flexParseDate
  | .ok none => flexParseDate
  | .error _ => flexParseDate

/-! ## The datetime column and the derived fields
(src/preprocessor.py 169-209) -/

def digit4 (n : Nat) : List Char := digit2 (n / 100) ++ digit2 n

/-- Models Series.astype(str) on the datetime64 date column (line 169):
the ISO date for a midnight timestamp, the string NaT for a missing
one. -/
def dateToStr : Option PDate → List Char
  | some d => digit4 d.year ++ '-' :: digit2 d.month ++ '-' :: digit2 d.day
  | none => ['N', 'a', 'T']

/-- A combined timestamp value. -/
structure DTv where
  year : Nat
  month : Nat
  day : Nat
  hour : Nat
  minute : Nat
  second : Nat
deriving DecidableEq, Repr

/-- The time tail of a combined string: hour with one or two digits up to
23, colon, minute up to 59, optional colon and seconds up to 59, nothing
after. -/
def parseTimeTail (s : List Char) : Option (Nat × Nat × Nat) :=
  match digitsBounded 1 2 s with
  | none => none
  | some (hs, r1) =>
  match parseNatDigits hs with
  | none => none
  | some h =>
  match expectCh ':' r1 with
  | none => none
  | some r2 =>
  match digitsBounded 1 2 r2 with
  | none => none
  | some (ms, r3) =>
  match parseNatDigits ms with
  | none => none
  | some mi =>
    if h ≤ 23 && mi ≤ 59 then
      match r3 with
      | [] => some (h, mi, 0)
      | ':' :: r4 =>
        (match digitsBounded 1 2 r4 with
         | none => none
         | some (ss, r5) =>
           match parseNatDigits ss with
           | none => none
           | some se => if se ≤ 59 && r5 = [] then some (h, mi, se) else none)
      | _ => none
    else none

/-- Models pd.to_datetime without a format (src/preprocessor.py line 169)
on one combined date-and-time string, in raising mode: the exact string
NaT gives a missing value, an ISO date followed by a space and a valid
time gives a timestamp, anything else raises — in particular the NaT
prefix the astype(str) call writes for an unparsed date, followed by the
time, fits no recognized shape. A trailing AM or PM fragment (possible
only for a twelve-hour time convert_time could not parse, such as hour
zero) is modelled as a failure as well. -/
def parseCombined (s : List Char) : Option (Option DTv) :=
  if s = ['N', 'a', 'T'] then some none
  else
    match s with
    | y1 :: y2 :: y3 :: y4 :: '-' :: m1 :: m2 :: '-' :: d1 :: d2 :: ' ' :: rest =>
      if isDigitCh y1 && isDigitCh y2 && isDigitCh y3 && isDigitCh y4
          && isDigitCh m1 && isDigitCh m2 && isDigitCh d1 && isDigitCh d2 then
        let y := digitVal y1 * 1000 + digitVal y2 * 100 + digitVal y3 * 10 + digitVal y4
        let mo := digitVal m1 * 10 + digitVal m2
        let da := digitVal d1 * 10 + digitVal d2
        if validPDate ⟨y, mo, da⟩ then
          match parseTimeTail rest with
          | some (h, mi, se) => some (some ⟨y, mo, da, h, mi, se⟩)
          | none => none
        else none
      else none
    | _ => none

/-- Days since 0000-03-01 (the civil-from-days algorithm); only its value
modulo seven matters, for the weekday name. -/
def daysFromCivil (y m d : Nat) : Nat :=
  let yy := if m ≤ 2 then y - 1 else y
  let era := yy / 400
  let yoe := yy % 400
  let mp := if m ≤ 2 then m + 9 else m - 3
  let doy := (153 * mp + 2) / 5 + d - 1
  let doe := yoe * 365 + yoe / 4 - yoe / 100 + doy
  era * 146097 + doe

def dayNames : List String :=
  ["Monday", "Tuesday", "Wednesday", "Thursday", "Friday", "Saturday", "Sunday"]

def monthNames : List String :=
  ["January", "February", "March", "April", "May", "June", "July",
   "August", "September", "October", "November", "December"]

/-- Models Series.dt.day_name (line 175). -/
def dayNameOf (dt : DTv) : String :=
  dayNames.getD ((daysFromCivil dt.year dt.month dt.day + 2) % 7) ""

/-- Models Series.dt.month_name (line 177). -/
def monthNameOf (dt : DTv) : String :=
  monthNames.getD (dt.month - 1) ""

/-! ## Message features (src/preprocessor.py 186-209) -/

def pyLower (s : List Char) : List Char := s.map Char.toLower

/-- Whitespace-delimited tokens, as Python str.split with no argument
produces them: runs of non-space characters, leading and trailing space
ignored. -/
def splitWsAux (cur : List Char) : List Char → List (List Char)
  | [] => if cur.isEmpty then [] else [cur.reverse]
  | c :: rest =>
    if pySpace c then
      if cur.isEmpty then splitWsAux [] rest
      else cur.reverse :: splitWsAux [] rest
    else splitWsAux (c :: cur) rest

def splitWs (s : List Char) : List (List Char) := splitWsAux [] s

/-- The media marker list of src/preprocessor.py line 192. -/
def media_terms : List (List Char) :=
  [("omitted").data, ("<media omitted>").data]

/-- Models the has_media column (lines 192-195): one when the lowercased
message contains one of the markers, else zero. -/
def has_media (msg : List Char) : Nat :=
  if media_terms.any (fun term => isSubstr term (pyLower msg)) then 1 else 0

/-- Models urlextract find_urls (lines 198-199). The claims use only that
it is a fixed pure function of the message; it is modelled as the
whitespace-delimited tokens that start with a web scheme or the www
prefix. -/
def find_urls (msg : List Char) : List (List Char) :=
  (splitWs msg).filter (fun t =>
    isPre (("http://").data) t || isPre (("https://").data) t
    || isPre (("www.").data) t)

/-- Models membership in the emoji EMOJI_DATA table (line 205), a fixed
character set; the claims depend only on it being a fixed predicate, so
the main emoji blocks stand for the full table. -/
def isEmojiChar (c : Char) : Bool :=
  (0x1F300 ≤ c.toNat && c.toNat ≤ 0x1FAFF) ||
  (0x2600 ≤ c.toNat && c.toNat ≤ 0x27BF) ||
  (0x1F000 ≤ c.toNat && c.toNat ≤ 0x1F2FF) ||
  c.toNat = 0x2764

/-- Models extract_emojis (lines 202-205): the characters of the message
that are in the emoji table, order and duplicates kept. -/
def extract_emojis (msg : List Char) : List Char := msg.filter isEmojiChar

/-- One fully enriched record: the four parser fields as the frame holds
them after preprocess, plus every derived column it adds. Fields that
come from the datetime are missing when the datetime is. -/
structure Enriched where
  date : Option PDate
  time : List Char
  user : List Char
  message : List Char
  datetime : Option DTv
  hour : Option Nat
  minute : Option Nat
  day : Option Nat
  day_of_week : Option String
  month : Option Nat
  month_name : Option String
  year : Option Nat
  message_length : Nat
  word_count : Nat
  has_media : Nat
  has_url : Bool
  url_count : Nat
  emojis : List Char
  emoji_count : Nat
deriving DecidableEq, Repr

/-- Builds one enriched row from its converted date, converted time, user
and message: the combine of line 169 raises on failure (no coercion
there), and lines 172-209 fill the derived columns. -/
def enrichRow (d : Option PDate) (t u msg : List Char) : Except Unit Enriched :=
  match parseCombined (dateToStr d ++ ' ' :: t) with
  | none => .error ()
  | some dt =>
    .ok {
      date := d, time := t, user := u, message := msg,
      datetime := dt,
      hour := dt.map (fun x => x.hour),
      minute := dt.map (fun x => x.minute),
      day := dt.map (fun x => x.day),
      day_of_week := dt.map dayNameOf,
      month := dt.map (fun x => x.month),
      month_name := dt.map monthNameOf,
      year := dt.map (fun x => x.year),
      message_length := msg.length,
      word_count := (splitWs msg).length,
      has_media := has_media msg,
      has_url := !(find_urls msg).isEmpty,
      url_count := (find_urls msg).length,
      emojis := extract_emojis msg,
      emoji_count := (extract_emojis msg).length }

/-- All-or-nothing map in the exception monad: pandas raises for the
whole column as soon as one element fails. -/
def mapExcept (f : α → Except Unit β) : List α → Except Unit (List β)
  | [] => .ok []
  | a :: rest =>
    match f a with
    | .error e => .error e
    | .ok b =>
      match mapExcept f rest with
      | .error e => .error e
      | .ok bs => .ok (b :: bs)

/-- The result frame of preprocess: the raw frame is returned unchanged
for empty input (line 107-108), otherwise every row carries the full
derived schema. -/
inductive PreOut
  | raw (df : List RawRecord)
  | enriched (df : List Enriched)
deriving DecidableEq, Repr

/-- Models preprocess (src/preprocessor.py 97-214). The chunked loop of
lines 163-166 applies convert_time to every row in order (its inclusive
loc slices apply it twice at chunk boundaries, which the idempotence
lemma below makes harmless); the category casts and the gc call change no
field; the only uncaught exception escape is the combine of line 169. -/
def preprocess (df : List RawRecord) : Except Unit PreOut :=
  if df.isEmpty then .ok (.raw df)
  else
    match mapExcept
        (fun r => enrichRow (dateParserFor (df.map (fun x => x.date)) r.date)
          (convert_time r.time) r.user r.message) df with
    | .error e => .error e
    | .ok out => .ok (.enriched out)

/-- Models analyze_chat (src/preprocessor.py 217-229). -/
def analyze_chat (data : List Char) : Except Unit PreOut :=
  preprocess (parse_chat data)

/-- Models a second run of preprocess over an already enriched frame, for
the idempotence claim: the str accessor of line 117 raises on the
datetime64 date column, so the except clause re-runs the coerced
conversion on an already-converted column, which changes nothing; the
remaining steps are those of the first run. -/
def preprocess_second (df : List Enriched) : Except Unit (List Enriched) :=
  if df.isEmpty then .ok df
  else mapExcept (fun e => enrichRow e.date (convert_time e.time) e.user e.message) df

/-- The hour column of an enriched result, for stating concrete pipeline
cases. -/
def hourColumn : Except Unit PreOut → Option (List (Option Nat))
  | .ok (.enriched l) => some (l.map (fun e => e.hour))
  | _ => none

/-! ## Helper lemmas -/

lemma digit_char_facts : ∀ y, y < 10 →
    'A' ≠ Char.ofNat (48 + y) ∧ 'P' ≠ Char.ofNat (48 + y) ∧
    'a' ≠ Char.ofNat (48 + y) ∧ 'p' ≠ Char.ofNat (48 + y) ∧
    'M' ≠ Char.ofNat (48 + y) ∧ 'm' ≠ Char.ofNat (48 + y) ∧
    Char.ofNat (48 + y) ≠ ':' := by decide

lemma dchar_facts (x : Nat) :
    'A' ≠ dchar x ∧ 'P' ≠ dchar x ∧ 'a' ≠ dchar x ∧ 'p' ≠ dchar x ∧
    'M' ≠ dchar x ∧ 'm' ≠ dchar x ∧ dchar x ≠ ':' :=
  digit_char_facts (x % 10) (Nat.mod_lt x (by norm_num))

lemma mem_of_isSubstr (c : Char) (ps l : List Char)
    (h : isSubstr (c :: ps) l = true) : c ∈ l := by
  induction l with
  | nil => simp [isSubstr] at h
  | cons d rest ih =>
    rw [isSubstr, Bool.or_eq_true] at h
    rcases h with h | h
    · by_cases hcd : c = d
      · exact hcd ▸ List.mem_cons_self c rest
      · rw [isPre, if_neg hcd] at h
        exact absurd h (by simp)
    · exact List.mem_cons_of_mem d (ih h)

lemma hasAmPmMarker_fmtHM (h m : Nat) : hasAmPmMarker (fmtHM h m) = false := by
  have e1 := dchar_facts (h / 10)
  have e2 := dchar_facts h
  have e3 := dchar_facts (m / 10)
  have e4 := dchar_facts m
  rw [hasAmPmMarker]
  have expand : fmtHM h m = [dchar (h / 10), dchar h, ':', dchar (m / 10), dchar m] := rfl
  by_contra hcon
  simp only [Bool.or_eq_true, Bool.not_eq_false] at hcon
  rcases hcon with ((hs | hs) | hs) | hs <;>
    · have hm2 := mem_of_isSubstr _ _ _ hs
      rw [expand] at hm2
      simp only [List.mem_cons, List.mem_singleton] at hm2
      rcases hm2 with h5 | h5 | h5 | h5 | h5 <;> simp_all

lemma count_colon_fmtHM (h m : Nat) : (fmtHM h m).count ':' = 1 := by
  have e1 := (dchar_facts (h / 10)).2.2.2.2.2.2
  have e2 := (dchar_facts h).2.2.2.2.2.2
  have e3 := (dchar_facts (m / 10)).2.2.2.2.2.2
  have e4 := (dchar_facts m).2.2.2.2.2.2
  have expand : fmtHM h m = [dchar (h / 10), dchar h, ':', dchar (m / 10), dchar m] := rfl
  rw [expand]
  simp [List.count_cons, e1, e2, e3, e4]

lemma convert_time_fmtHM (h m : Nat) : convert_time (fmtHM h m) = fmtHM h m := by
  rw [convert_time, hasAmPmMarker_fmtHM, count_colon_fmtHM]
  simp

lemma convert_time_idem (t : List Char) :
    convert_time (convert_time t) = convert_time t := by
  by_cases hm : hasAmPmMarker t = true
  · cases hs : strptime_IMp t with
    | some p =>
      obtain ⟨h1, m1⟩ := p
      have hct : convert_time t = fmtHM h1 m1 := by
        rw [convert_time, hm, hs]
        simp
      rw [hct, convert_time_fmtHM]
    | none =>
      have hct : convert_time t = t := by
        rw [convert_time, hm, hs]
        simp
      rw [hct, hct]
  · by_cases hc : (t.contains ':' && decide (t.count ':' = 2)) = true
    · cases hs : strptime_HMS t with
      | some p =>
        have hct : convert_time t = fmtHM p.1 p.2.1 := by
          rw [convert_time]
          rw [Bool.not_eq_true] at hm
          rw [hm, hc, hs]
          simp
        rw [hct, convert_time_fmtHM]
      | none =>
        have hct : convert_time t = t := by
          rw [convert_time]
          rw [Bool.not_eq_true] at hm
          rw [hm, hc, hs]
          simp
        rw [hct, hct]
    · have hct : convert_time t = t := by
        rw [convert_time]
        rw [Bool.not_eq_true] at hm
        rw [Bool.not_eq_true] at hc
        rw [hm, hc]
        simp
      rw [hct, hct]

lemma mapExcept_ok_mem {α β : Type} {f : α → Except Unit β} :
    ∀ {l : List α} {out : List β}, mapExcept f l = .ok out →
      ∀ b ∈ out, ∃ a, a ∈ l ∧ f a = .ok b := by
  intro l
  induction l with
  | nil =>
    intro out h b hb
    rw [mapExcept] at h
    injection h with h
    subst h
    simp at hb
  | cons a rest ih =>
    intro out h b hb
    rw [mapExcept] at h
    cases hf : f a with
    | error e => rw [hf] at h; exact absurd h (by simp)
    | ok b0 =>
      rw [hf] at h
      cases hr : mapExcept f rest with
      | error e => rw [hr] at h; exact absurd h (by simp)
      | ok bs =>
        rw [hr] at h
        injection h with h
        subst h
        rcases List.mem_cons.mp hb with hb | hb
        · exact ⟨a, List.mem_cons_self a rest, hb ▸ hf⟩
        · obtain ⟨a2, ha2, hfa2⟩ := ih hr b hb
          exact ⟨a2, List.mem_cons_of_mem a ha2, hfa2⟩

lemma mapExcept_ok_of_id {β : Type} {f : β → Except Unit β} :
    ∀ {l : List β}, (∀ b ∈ l, f b = .ok b) → mapExcept f l = .ok l := by
  intro l
  induction l with
  | nil => intro _; rfl
  | cons a rest ih =>
    intro h
    rw [mapExcept, h a (List.mem_cons_self a rest),
      ih (fun b hb => h b (List.mem_cons_of_mem a hb))]

lemma enrichRow_ok_fields {d : Option PDate} {t u msg : List Char} {e : Enriched}
    (h : enrichRow d t u msg = .ok e) :
    e.date = d ∧ e.time = t ∧ e.user = u ∧ e.message = msg ∧
    e.message_length = msg.length ∧ e.word_count = (splitWs msg).length ∧
    e.has_media = has_media msg ∧ e.has_url = !(find_urls msg).isEmpty ∧
    e.url_count = (find_urls msg).length ∧ e.emojis = extract_emojis msg ∧
    e.emoji_count = (extract_emojis msg).length := by
  rw [enrichRow] at h
  cases hp : parseCombined (dateToStr d ++ ' ' :: t) with
  | none => rw [hp] at h; exact absurd h (by simp)
  | some dt =>
    rw [hp] at h
    injection h with h
    subst h
    exact ⟨rfl, rfl, rfl, rfl, rfl, rfl, rfl, rfl, rfl, rfl, rfl⟩

/-! ## Lemmas about line splitting and the parser fold -/

lemma splitOn_no_sep (sep : Char) (l : List Char) (h : sep ∉ l) :
    splitOn sep l = [l] := by
  induction l with
  | nil => rfl
  | cons c rest ih =>
    have hcs : ¬ c = sep := fun hc => h (hc ▸ List.mem_cons_self c rest)
    rw [splitOn, if_neg hcs, ih (fun hm => h (List.mem_cons_of_mem c hm))]

lemma splitOn_append (sep : Char) (l T : List Char) (h : sep ∉ l) :
    splitOn sep (l ++ sep :: T) = l :: splitOn sep T := by
  induction l with
  | nil => simp [splitOn]
  | cons c rest ih =>
    have hcs : ¬ c = sep := fun hc => h (hc ▸ List.mem_cons_self c rest)
    rw [List.cons_append, splitOn, if_neg hcs,
      ih (fun hm => h (List.mem_cons_of_mem c hm))]

lemma splitLines_joinLines :
    ∀ (ls : List (List Char)), ls ≠ [] → (∀ l ∈ ls, '\n' ∉ l) →
      splitLines (joinLines ls) = ls := by
  intro ls
  induction ls with
  | nil => intro h _; exact absurd rfl h
  | cons l rest ih =>
    intro _ hfree
    cases rest with
    | nil =>
      rw [joinLines, splitLines, splitOn_no_sep _ _ (hfree l (List.mem_cons_self l []))]
    | cons l2 rest2 =>
      have hj : joinLines (l :: l2 :: rest2) = l ++ '\n' :: joinLines (l2 :: rest2) := rfl
      rw [hj, splitLines,
        splitOn_append _ _ _ (hfree l (List.mem_cons_self l (l2 :: rest2)))]
      have hih := ih (List.cons_ne_nil l2 rest2)
        (fun x hx => hfree x (List.mem_cons_of_mem l hx))
      rw [splitLines] at hih
      rw [hih]

lemma foldl_no_header (lines : List (List Char))
    (h : ∀ l ∈ lines, matchHeader l = none) :
    lines.foldl parseStep [] = [] := by
  induction lines with
  | nil => rfl
  | cons l rest ih =>
    rw [List.foldl_cons]
    have hstep : parseStep [] l = [] := by
      rw [parseStep, h l (List.mem_cons_self l rest)]
      rfl
    rw [hstep, ih (fun x hx => h x (List.mem_cons_of_mem l hx))]

lemma foldl_junk (junk lines : List (List Char))
    (h : ∀ l ∈ junk, matchHeader l = none) :
    (junk ++ lines).foldl parseStep [] = lines.foldl parseStep [] := by
  induction junk with
  | nil => rfl
  | cons l rest ih =>
    rw [List.cons_append, List.foldl_cons]
    have hstep : parseStep [] l = [] := by
      rw [parseStep, h l (List.mem_cons_self l rest)]
      rfl
    rw [hstep, ih (fun x hx => h x (List.mem_cons_of_mem l hx))]

lemma foldl_conts (r : RawRecord) (conts : List (List Char))
    (h : ∀ l ∈ conts, matchHeader l = none) :
    conts.foldl parseStep [r] =
      [{ r with message := r.message ++ (conts.map (fun l => '\n' :: l)).flatten }] := by
  induction conts generalizing r with
  | nil => simp
  | cons c rest ih =>
    rw [List.foldl_cons]
    have hstep : parseStep [r] c = [{ r with message := r.message ++ '\n' :: c }] := by
      rw [parseStep, h c (List.mem_cons_self c rest)]
      rfl
    rw [hstep, ih _ (fun x hx => h x (List.mem_cons_of_mem c hx))]
    simp

lemma contains_of_count_two (t : List Char) (h : t.count ':' = 2) :
    t.contains ':' = true := by
  have hpos : 0 < t.count ':' := by omega
  have hmem : ':' ∈ t := List.count_pos_iff.mp hpos
  exact List.elem_eq_true_of_mem hmem

/-! ## The claims -/

/-- C10: preprocess on an empty parsed frame returns it at once, with none
of the derived columns added: the result still carries the raw
four-field schema. -/
theorem empty_frame_passthrough : preprocess ([] : List RawRecord) = .ok (.raw []) := rfl

/-- C6: an input in which no line matches any of the three header patterns
parses to the empty record list, and preprocess returns it as a valid
empty result without raising. -/
theorem no_header_empty_result :
    ∀ data : List Char, (∀ l ∈ splitLines data, matchHeader l = none) →
      parse_chat data = [] ∧ preprocess (parse_chat data) = .ok (.raw []) := by
  intro data h
  have hp : parse_chat data = [] := by
    rw [parse_chat]
    exact foldl_no_header _ h
  exact ⟨hp, by rw [hp]; rfl⟩

/-- Witness for C6 at a concrete two-line input with no header line. -/
theorem no_header_empty_result_wit :
    parse_chat (("hello\nworld").data) = [] ∧
    preprocess (parse_chat (("hello\nworld").data)) = .ok (.raw []) :=
  no_header_empty_result (("hello\nworld").data) (by decide)

/-- C7: the has_media flag is one exactly when the lowercased message
contains one of the two fixed media markers, and zero exactly
otherwise. -/
theorem media_marker_iff :
    ∀ msg : List Char,
      (has_media msg = 1 ↔ ∃ term ∈ media_terms, isSubstr term (pyLower msg) = true) ∧
      (has_media msg = 0 ↔ ¬ ∃ term ∈ media_terms, isSubstr term (pyLower msg) = true) := by
  intro msg
  by_cases hc : media_terms.any (fun term => isSubstr term (pyLower msg)) = true
  · have hex : ∃ term ∈ media_terms, isSubstr term (pyLower msg) = true := by
      simpa [List.any_eq_true] using hc
    rw [has_media, if_pos hc]
    exact ⟨iff_of_true rfl hex, iff_of_false (by decide) (not_not_intro hex)⟩
  · have hnex : ¬ ∃ term ∈ media_terms, isSubstr term (pyLower msg) = true := by
      intro hex
      exact hc (List.any_eq_true.mpr hex)
    rw [has_media, if_neg hc]
    exact ⟨iff_of_false (by decide) hnex, iff_of_true rfl hnex⟩

/-- Witness for C7: a message with the marker and one without. -/
theorem media_marker_iff_wit :
    has_media (("check <Media omitted>").data) = 1 ∧
    has_media (("hello there").data) = 0 :=
  ⟨(media_marker_iff (("check <Media omitted>").data)).1.mpr
      ⟨("omitted").data, by decide, by decide⟩,
   (media_marker_iff (("hello there").data)).2.mpr (by decide)⟩

/-- C5: the concrete twelve-hour line parses to the expected record, and
after feature extraction its hour is 23. -/
theorem twelve_hour_format_case :
    parse_chat (("12/31/23, 11:59 PM - Alice: Hello").data) =
      [{ date := ("12/31/23").data, time := ("11:59 PM").data,
         user := ("Alice").data, message := ("Hello").data }] ∧
    hourColumn (analyze_chat (("12/31/23, 11:59 PM - Alice: Hello").data)) =
      some [some 23] := by
  constructor
  · decide
  · decide

/-- C1 (the code contradicts the claim): a record whose date fails every
parsing strategy is coerced to a missing date, but the datetime combine of
src/preprocessor.py line 169 then receives the string NaT plus the time
and pd.to_datetime is called there without coercion, so preprocess raises
instead of keeping the record with a missing datetime. The conjuncts show
the record parses, its date parses to the missing value, and the pipeline
then fails. -/
theorem unparsed_date_crashes_combine :
    parse_chat (("99/99/99, 10:00 - Alice: Hi").data) =
      [{ date := ("99/99/99").data, time := ("10:00").data,
         user := ("Alice").data, message := ("Hi").data }] ∧
    dateParserFor [("99/99/99").data] (("99/99/99").data) = none ∧
    analyze_chat (("99/99/99, 10:00 - Alice: Hi").data) = .error () := by
  refine ⟨by decide, by decide, by rfl⟩

/-- C4: convert_time normalizes a string with one of the AM or PM markers
through the twelve-hour parse when it succeeds, truncates a two-colon
string through the second parse when it succeeds, and returns every other
string, and every string whose parse fails, unchanged. -/
theorem convert_time_spec :
    ∀ t : List Char,
      (hasAmPmMarker t = true →
        ((∃ h m, strptime_IMp t = some (h, m) ∧ convert_time t = fmtHM h m) ∨
         (strptime_IMp t = none ∧ convert_time t = t))) ∧
      (hasAmPmMarker t = false → List.count ':' t = 2 →
        ((∃ h m s, strptime_HMS t = some (h, m, s) ∧ convert_time t = fmtHM h m) ∨
         (strptime_HMS t = none ∧ convert_time t = t))) ∧
      (hasAmPmMarker t = false → List.count ':' t ≠ 2 → convert_time t = t) := by
  intro t
  refine ⟨?_, ?_, ?_⟩
  · intro hm
    cases hs : strptime_IMp t with
    | some p =>
      obtain ⟨h1, m1⟩ := p
      refine Or.inl ⟨h1, m1, rfl, ?_⟩
      rw [convert_time, hm, hs]
      simp
    | none =>
      refine Or.inr ⟨rfl, ?_⟩
      rw [convert_time, hm, hs]
      simp
  · intro hm hcnt
    have hcol := contains_of_count_two t hcnt
    have hdec : decide (List.count ':' t = 2) = true := decide_eq_true hcnt
    cases hs : strptime_HMS t with
    | some p =>
      obtain ⟨h1, m1, s1⟩ := p
      refine Or.inl ⟨h1, m1, s1, rfl, ?_⟩
      rw [convert_time, hm, hcol, hdec, hs]
      simp
    | none =>
      refine Or.inr ⟨rfl, ?_⟩
      rw [convert_time, hm, hcol, hdec, hs]
      simp
  · intro hm hcnt
    have hdec : decide (List.count ':' t = 2) = false := decide_eq_false hcnt
    rw [convert_time, hm, hdec]
    simp

/-- Witness for C4: a twelve-hour time, a seconds time and a plain time. -/
theorem convert_time_spec_wit :
    ((∃ h m, strptime_IMp (("11:59 PM").data) = some (h, m) ∧
       convert_time (("11:59 PM").data) = fmtHM h m) ∨
     (strptime_IMp (("11:59 PM").data) = none ∧
       convert_time (("11:59 PM").data) = ("11:59 PM").data)) ∧
    ((∃ h m s, strptime_HMS (("14:05:30").data) = some (h, m, s) ∧
       convert_time (("14:05:30").data) = fmtHM h m) ∨
     (strptime_HMS (("14:05:30").data) = none ∧
       convert_time (("14:05:30").data) = ("14:05:30").data)) ∧
    convert_time (("10:00").data) = ("10:00").data :=
  ⟨(convert_time_spec (("11:59 PM").data)).1 (by decide),
   (convert_time_spec (("14:05:30").data)).2.1 (by decide) (by decide),
   (convert_time_spec (("10:00").data)).2.2 (by decide) (by decide)⟩

/-- C3: the inference looks only at the first hundred dates; a sampled
period decides the dotted day-first format; otherwise the first sampled
slash date with three components and a numeric first component decides
day-first when that component exceeds twelve and month-first otherwise,
with the year width picking the two or four digit variant; with no
period or slash in the sample the inference yields no format and the
conversion is the flexible parser, whose day and month resolution prefers
the day-first reading. -/
theorem date_inference_spec :
    (∀ dates : List (List Char),
        infer_date_format dates = infer_date_format (dates.take 100)) ∧
    (∀ dates : List (List Char),
        (dates.take 100).any (fun d => d.contains '.') = true →
        infer_date_format dates = .ok (some .dmY_dot)) ∧
    (∀ (dates : List (List Char)) (s p0 p1 p2 : List Char) (n : Nat),
        (dates.take 100).any (fun d => d.contains '.') = false →
        (dates.take 100).find? (fun d => d.contains '/') = some s →
        splitOn '/' s = [p0, p1, p2] →
        parseNatDigits p0 = some n →
        infer_date_format dates =
          .ok (some (if n > 12 then (if p2.length = 4 then .dmY_slash else .dmy_slash)
                     else (if p2.length = 4 then .mdY_slash else .mdy_slash)))) ∧
    (∀ dates : List (List Char),
        (∀ d ∈ dates.take 100, d.contains '.' = false ∧ d.contains '/' = false) →
        infer_date_format dates = .ok none ∧ dateParserFor dates = flexParseDate) ∧
    (∀ a b : Nat, 1 ≤ a → a ≤ 31 → 1 ≤ b → b ≤ 12 → resolveDM a b = some (a, b)) := by
  refine ⟨?_, ?_, ?_, ?_, ?_⟩
  · intro dates
    have htt : (dates.take 100).take 100 = dates.take 100 := by
      rw [List.take_take]
      norm_num
    simp only [infer_date_format, htt]
  · intro dates h
    simp only [infer_date_format]
    rw [h]
    simp
  · intro dates s p0 p1 p2 n hdot hfind hsplit hint
    simp only [infer_date_format, hdot, hfind, hsplit, hint]
    by_cases hn : n > 12 <;> by_cases hl : p2.length = 4 <;> simp [hn, hl]
  · intro dates h
    have hdot : (dates.take 100).any (fun d => d.contains '.') = false := by
      rw [List.any_eq_false]
      intro d hd
      rw [(h d hd).1]
      simp
    have hfind : (dates.take 100).find? (fun d => d.contains '/') = none := by
      rw [List.find?_eq_none]
      intro d hd
      rw [(h d hd).2]
      simp
    have hinf : infer_date_format dates = .ok none := by
      simp only [infer_date_format, hdot, hfind]
      simp
    exact ⟨hinf, by rw [dateParserFor, hinf]⟩
  · intro a b h1 h2 h3 h4
    rw [resolveDM, if_pos]
    simp [h1, h2, h3, h4]

/-- Witness for C3: one dotted sample, one slash sample with a first
component over twelve, one sample with neither separator, and a day-first
resolution instance. -/
theorem date_inference_spec_wit :
    infer_date_format [("31.12.2023").data] = .ok (some .dmY_dot) ∧
    infer_date_format [("13/1/23").data] = .ok (some .dmy_slash) ∧
    (infer_date_format [("2023-01-02").data] = .ok none ∧
      dateParserFor [("2023-01-02").data] = flexParseDate) ∧
    resolveDM 5 4 = some (5, 4) :=
  ⟨date_inference_spec.2.1 [("31.12.2023").data] (by decide),
   date_inference_spec.2.2.1 [("13/1/23").data] (("13/1/23").data)
     (("13").data) (("1").data) (("23").data) 13
     (by decide) (by decide) (by decide) (by decide),
   date_inference_spec.2.2.2.1 [("2023-01-02").data] (by decide),
   date_inference_spec.2.2.2.2 5 4 (by decide) (by decide) (by decide) (by decide)⟩

/-- C2: a header line followed by lines matching no pattern yields one
record whose message is the header tail plus each continuation joined by
a newline, in order; and lines matching no pattern before any record
exists are discarded without effect. -/
theorem continuation_merging :
    (∀ (hd : List Char) (conts : List (List Char)) (r : RawRecord),
        matchHeader hd = some r →
        (∀ l ∈ conts, matchHeader l = none) →
        (∀ l ∈ hd :: conts, '\n' ∉ l) →
        parse_chat (joinLines (hd :: conts)) =
          [{ r with message := r.message ++ (conts.map (fun l => '\n' :: l)).flatten }]) ∧
    (∀ junk ls : List (List Char),
        (∀ l ∈ junk, matchHeader l = none) →
        (∀ l ∈ junk ++ ls, '\n' ∉ l) →
        ls ≠ [] →
        parse_chat (joinLines (junk ++ ls)) = parse_chat (joinLines ls)) := by
  constructor
  · intro hd conts r hhdr hcont hfree
    rw [parse_chat, splitLines_joinLines (hd :: conts) (List.cons_ne_nil hd conts) hfree,
      List.foldl_cons]
    have hstep : parseStep [] hd = [r] := by
      rw [parseStep, hhdr]
      rfl
    rw [hstep]
    exact foldl_conts r conts hcont
  · intro junk ls hjunk hfree hne
    have hne2 : junk ++ ls ≠ [] := fun hh => hne (List.append_eq_nil.mp hh).2
    rw [parse_chat, splitLines_joinLines (junk ++ ls) hne2 hfree,
      foldl_junk junk ls hjunk, parse_chat,
      splitLines_joinLines ls hne (fun x hx => hfree x (List.mem_append_right junk hx))]

/-- Witness for C2: one header with one continuation line, and one junk
line before a header. -/
theorem continuation_merging_wit :
    parse_chat (joinLines [("1/2/23, 09:15 - Carol: Hi").data, ("more text").data]) =
      [{ date := ("1/2/23").data, time := ("09:15").data, user := ("Carol").data,
         message := ("Hi\nmore text").data }] ∧
    parse_chat (joinLines [("noise line").data, ("3/4/23, 08:00 - Dan: Yo").data]) =
      parse_chat (joinLines [("3/4/23, 08:00 - Dan: Yo").data]) :=
  ⟨continuation_merging.1 (("1/2/23, 09:15 - Carol: Hi").data) [("more text").data]
      { date := ("1/2/23").data, time := ("09:15").data, user := ("Carol").data,
        message := ("Hi").data }
      (by decide) (by decide) (by decide),
   continuation_merging.2 [("noise line").data] [("3/4/23, 08:00 - Dan: Yo").data]
      (by decide) (by decide) (by decide)⟩

/-- C8: in every enriched row the emoji count is the length of the emoji
sequence, the word count of an empty message is zero, and the four counts
are the values of fixed functions of the message alone, hence
deterministic and nonnegative. -/
theorem derived_count_consistency :
    ∀ (df : List RawRecord) (out : List Enriched),
      preprocess df = .ok (.enriched out) → ∀ e ∈ out,
        e.emoji_count = e.emojis.length ∧
        (e.message = [] → e.word_count = 0) ∧
        e.message_length = e.message.length ∧
        e.word_count = (splitWs e.message).length ∧
        e.has_media = has_media e.message ∧
        e.url_count = (find_urls e.message).length ∧
        e.emojis = extract_emojis e.message ∧
        0 ≤ e.word_count ∧ 0 ≤ e.message_length ∧ 0 ≤ e.emoji_count ∧ 0 ≤ e.url_count := by
  intro df out h e he
  rw [preprocess] at h
  by_cases hemp : df.isEmpty
  · rw [if_pos hemp] at h
    exact absurd h (by simp)
  · rw [if_neg hemp] at h
    cases hmap : mapExcept
        (fun r => enrichRow (dateParserFor (df.map (fun x => x.date)) r.date)
          (convert_time r.time) r.user r.message) df with
    | error e1 =>
      rw [hmap] at h
      exact absurd h (by simp)
    | ok out2 =>
      rw [hmap] at h
      have hout : out2 = out := by
        simpa using h
      subst hout
      obtain ⟨r, hr, hok⟩ := mapExcept_ok_mem hmap e he
      obtain ⟨hd, ht, hu, hmsg, hlen, hwc, hmed, hurl, huc, hemo, hec⟩ :=
        enrichRow_ok_fields hok
      refine ⟨?_, ?_, ?_, ?_, ?_, ?_, ?_,
        Nat.zero_le _, Nat.zero_le _, Nat.zero_le _, Nat.zero_le _⟩
      · rw [hec, hemo]
      · intro hme
        rw [hmsg] at hme
        rw [hwc, hme]
        rfl
      · rw [hlen, hmsg]
      · rw [hwc, hmsg]
      · rw [hmed, hmsg]
      · rw [huc, hmsg]
      · rw [hemo, hmsg]

/-- Witness for C8 at a concrete one-line input. -/
theorem derived_count_consistency_wit :
    ({ date := some ⟨2023, 7, 8⟩, time := ("06:05").data, user := ("F").data,
       message := ("hi").data, datetime := some ⟨2023, 7, 8, 6, 5, 0⟩,
       hour := some 6, minute := some 5, day := some 8,
       day_of_week := some ("Saturday"), month := some 7,
       month_name := some ("July"), year := some 2023, message_length := 2,
       word_count := 1, has_media := 0, has_url := false, url_count := 0,
       emojis := [], emoji_count := 0 } : Enriched).emoji_count =
      ({ date := some ⟨2023, 7, 8⟩, time := ("06:05").data, user := ("F").data,
         message := ("hi").data, datetime := some ⟨2023, 7, 8, 6, 5, 0⟩,
         hour := some 6, minute := some 5, day := some 8,
         day_of_week := some ("Saturday"), month := some 7,
         month_name := some ("July"), year := some 2023, message_length := 2,
         word_count := 1, has_media := 0, has_url := false, url_count := 0,
         emojis := [], emoji_count := 0 } : Enriched).emojis.length :=
  (derived_count_consistency
    [{ date := ("7/8/23").data, time := ("06:05").data, user := ("F").data,
       message := ("hi").data }]
    [{ date := some ⟨2023, 7, 8⟩, time := ("06:05").data, user := ("F").data,
       message := ("hi").data, datetime := some ⟨2023, 7, 8, 6, 5, 0⟩,
       hour := some 6, minute := some 5, day := some 8,
       day_of_week := some ("Saturday"), month := some 7,
       month_name := some ("July"), year := some 2023, message_length := 2,
       word_count := 1, has_media := 0, has_url := false, url_count := 0,
       emojis := [], emoji_count := 0 }]
    (by rfl)
    { date := some ⟨2023, 7, 8⟩, time := ("06:05").data, user := ("F").data,
      message := ("hi").data, datetime := some ⟨2023, 7, 8, 6, 5, 0⟩,
      hour := some 6, minute := some 5, day := some 8,
      day_of_week := some ("Saturday"), month := some 7,
      month_name := some ("July"), year := some 2023, message_length := 2,
      word_count := 1, has_media := 0, has_url := false, url_count := 0,
      emojis := [], emoji_count := 0 }
    (by simp)).1

/-- C9: feature derivation is idempotent: a second run of the extraction
over an already enriched frame returns it unchanged (the date column is
already converted, so the inference raises into the coercing except
clause, which is the identity on a datetime column; time conversion is
idempotent; every other column is a function of unchanged fields). -/
theorem feature_derivation_idempotent :
    ∀ (df : List RawRecord) (out : List Enriched),
      preprocess df = .ok (.enriched out) →
      preprocess_second out = .ok out := by
  intro df out h
  rw [preprocess] at h
  by_cases hemp : df.isEmpty
  · rw [if_pos hemp] at h
    exact absurd h (by simp)
  · rw [if_neg hemp] at h
    cases hmap : mapExcept
        (fun r => enrichRow (dateParserFor (df.map (fun x => x.date)) r.date)
          (convert_time r.time) r.user r.message) df with
    | error e1 =>
      rw [hmap] at h
      exact absurd h (by simp)
    | ok out2 =>
      rw [hmap] at h
      have hout : out2 = out := by
        simpa using h
      subst hout
      rw [preprocess_second]
      by_cases hoe : out2.isEmpty
      · rw [if_pos hoe]
      · rw [if_neg hoe]
        apply mapExcept_ok_of_id
        intro e he
        obtain ⟨r, hr, hok⟩ := mapExcept_ok_mem hmap e he
        obtain ⟨hd, ht, hu, hmsg, _⟩ := enrichRow_ok_fields hok
        rw [hd, ht, hu, hmsg, convert_time_idem]
        exact hok

/-- Witness for C9 at a concrete one-line input. -/
theorem feature_derivation_idempotent_wit :
    preprocess_second
      [{ date := some ⟨2023, 1, 1⟩, time := ("10:00").data, user := ("Bob").data,
         message := ("Hey").data, datetime := some ⟨2023, 1, 1, 10, 0, 0⟩,
         hour := some 10, minute := some 0, day := some 1,
         day_of_week := some ("Sunday"), month := some 1,
         month_name := some ("January"), year := some 2023, message_length := 3,
         word_count := 1, has_media := 0, has_url := false, url_count := 0,
         emojis := [], emoji_count := 0 }] =
      .ok
        [{ date := some ⟨2023, 1, 1⟩, time := ("10:00").data, user := ("Bob").data,
           message := ("Hey").data, datetime := some ⟨2023, 1, 1, 10, 0, 0⟩,
           hour := some 10, minute := some 0, day := some 1,
           day_of_week := some ("Sunday"), month := some 1,
           month_name := some ("January"), year := some 2023, message_length := 3,
           word_count := 1, has_media := 0, has_url := false, url_count := 0,
           emojis := [], emoji_count := 0 }] :=
  feature_derivation_idempotent
    [{ date := ("1/1/23").data, time := ("10:00").data, user := ("Bob").data,
       message := ("Hey").data }]
    [{ date := some ⟨2023, 1, 1⟩, time := ("10:00").data, user := ("Bob").data,
       message := ("Hey").data, datetime := some ⟨2023, 1, 1, 10, 0, 0⟩,
       hour := some 10, minute := some 0, day := some 1,
       day_of_week := some ("Sunday"), month := some 1,
       month_name := some ("January"), year := some 2023, message_length := 3,
       word_count := 1, has_media := 0, has_url := false, url_count := 0,
       emojis := [], emoji_count := 0 }]
    (by rfl)

end WCA
